import Mathlib

/-!
Shallow embedding of the 2048-style game engine in `src/js/game_manager.js`
(classes `Game` and `GameManager`).  The repository imports `./grid.js` and
`./tile.js`, which are not present; the `Grid` and `Tile` components are
modelled from the specification (data model §3, Grid operations §4.1, wire
shape §6).  Everything in the `Game` class itself is translated directly from
`game_manager.js`.

JS mutation is rendered as explicit state passing; `Math.random` becomes
oracle parameters; the render and storage collaborators become returned data
(a `Storage` record threaded through, and a `RenderCall` value standing for
the `render.draw` callout).
-/

namespace Gabriel

/-- An integer coordinate pair `{x, y}`.  Coordinates are `Int` because the
farthest-position search steps one cell past the board edge (to `-1` or
`size`). -/
@[ext]
structure Pos where
  x : Int
  y : Int
deriving DecidableEq, Repr

/-- Modelled from the spec: `tile.js` is absent from `src/`.  A tile has a
current position, a value, a previous-position snapshot, and a
merge-provenance tag (`mergedFrom`).  The source consults only the truthiness
of `mergedFrom` (`!next.mergedFrom`), so the tag is embedded as a `Bool`:
`true` when set (the JS array of the two source tiles), `false` when `null`. -/
structure Tile where
  x : Int
  y : Int
  value : Nat
  previousPosition : Option Pos
  mergedFrom : Bool
deriving DecidableEq, Repr

/-- Modelled from the spec: `new Tile(position, value)` — previous position
and merge provenance start unset. -/
def Tile.make (p : Pos) (v : Nat) : Tile :=
  { x := p.x, y := p.y, value := v, previousPosition := none, mergedFrom := false }

/-- Modelled from the spec: `tile.savePosition()` snapshots the current
position as the previous position. -/
def Tile.savePosition (t : Tile) : Tile :=
  { t with previousPosition := some ⟨t.x, t.y⟩ }

/-- Modelled from the spec: `tile.updatePosition(cell)` moves the tile's
stored coordinates to `cell`. -/
def Tile.updatePosition (t : Tile) (p : Pos) : Tile :=
  { t with x := p.x, y := p.y }

/-- Cell matrix indexed `cells[x][y]`, each cell holding an optional tile. -/
abbrev Cells := List (List (Option Tile))

/-- Read `cells[x][y]` (out-of-range reads give `none`). -/
def cellsGet {α : Type} (cells : List (List (Option α))) (x y : Nat) : Option α :=
  (((cells[x]?).map (fun col => col[y]?)).join).join

/-- Write `cells[x][y] := v` (out-of-range writes are dropped, as callers
only write in-bounds cells). -/
def cellsSet (cells : Cells) (x y : Nat) (v : Option Tile) : Cells :=
  cells.set x ((cells.getD x []).set y v)

/-- Modelled from the spec: the `Grid` component (`grid.js` is absent from
`src/`): size `N` plus the `N×N` cell matrix. -/
structure Grid where
  size : Nat
  cells : Cells
deriving DecidableEq, Repr

/-- Modelled from the spec: a fresh empty grid of the given size. -/
def Grid.empty (n : Nat) : Grid :=
  { size := n, cells := List.replicate n (List.replicate n none) }

/-- Modelled from the spec: `withinBounds(pos)` — `0 ≤ x,y < size`. -/
def Grid.withinBounds (g : Grid) (p : Pos) : Bool :=
  0 ≤ p.x && p.x < (g.size : Int) && 0 ≤ p.y && p.y < (g.size : Int)

/-- Modelled from the spec: `cellContent(pos)` — the tile at `pos`, or none;
out-of-range positions are treated as empty, not a fault. -/
def Grid.cellContent (g : Grid) (p : Pos) : Option Tile :=
  if g.withinBounds p then cellsGet g.cells p.x.toNat p.y.toNat else none

/-- Modelled from the spec: a cell is occupied when it holds a tile. -/
def Grid.cellOccupied (g : Grid) (p : Pos) : Bool :=
  (g.cellContent p).isSome

/-- Modelled from the spec: a cell is available when not occupied. -/
def Grid.cellAvailable (g : Grid) (p : Pos) : Bool :=
  !(g.cellOccupied p)

/-- Modelled from the spec: the list of empty cells, visited x-major as
`eachCell` does. -/
def Grid.availableCells (g : Grid) : List Pos :=
  (List.range g.size).flatMap (fun x =>
    (List.range g.size).filterMap (fun y =>
      if (cellsGet g.cells x y).isNone then some ⟨(x : Int), (y : Int)⟩ else none))

/-- Modelled from the spec: `cellsAvailable()` — true iff at least one cell
holds no tile. -/
def Grid.cellsAvailable (g : Grid) : Bool :=
  !g.availableCells.isEmpty

/-- Modelled from the spec: `insertTile(tile)` places the tile at its stored
position. -/
def Grid.insertTile (g : Grid) (t : Tile) : Grid :=
  { g with cells := cellsSet g.cells t.x.toNat t.y.toNat (some t) }

/-- Modelled from the spec: `removeTile(tile)` clears the cell at the tile's
stored position. -/
def Grid.removeTile (g : Grid) (t : Tile) : Grid :=
  { g with cells := cellsSet g.cells t.x.toNat t.y.toNat none }

/-- Serialized tile: `{position: {x, y}, value}` (wire shape, spec §6). -/
structure STile where
  x : Int
  y : Int
  value : Nat
deriving DecidableEq, Repr

/-- Serialized grid: `{size, cells}` (wire shape, spec §6). -/
structure SGrid where
  size : Nat
  cells : List (List (Option STile))
deriving DecidableEq, Repr

/-- Modelled from the spec: `tile.serialize()` records position and value. -/
def Tile.serializeTile (t : Tile) : STile :=
  { x := t.x, y := t.y, value := t.value }

/-- Modelled from the spec: `grid.serialize()` — the plain `{size, cells}`
representation. -/
def Grid.serializeGrid (g : Grid) : SGrid :=
  { size := g.size,
    cells := g.cells.map (fun col => col.map (Option.map Tile.serializeTile)) }

/-- Modelled from the spec: `new Grid(size, cells)` reconstructing a grid
from its serialized cells — each stored `{position, value}` entry becomes a
fresh tile (previous position and merge provenance unset). -/
def Grid.fromState (size : Nat) (cells : List (List (Option STile))) : Grid :=
  { size := size,
    cells := cells.map (fun col =>
      col.map (Option.map (fun s => Tile.make ⟨s.x, s.y⟩ s.value))) }

/-- Serialized session state, spec §6 wire shape. -/
structure SavedState where
  grid : SGrid
  score : Nat
  over : Bool
  won : Bool
  keepPlaying : Bool
deriving DecidableEq, Repr

/-- The storage collaborator's state: the persisted game state and the best
score. -/
structure Storage where
  gameState : Option SavedState
  bestScore : Nat
deriving DecidableEq, Repr

/-- The session state of the `Game` class: the grid, score and flags, plus
the constructor arguments it keeps (`render.size` and `startTiles`).  The
class never assigns a `size` property of its own (this matters for
`tileMatchesAvailable`). -/
structure Game where
  grid : Grid
  score : Nat
  over : Bool
  won : Bool
  keepPlaying : Bool
  renderSize : Nat
  startTiles : Nat
deriving DecidableEq, Repr

/-- The argument record of a `render.draw(grid, {...})` callout. -/
structure RenderCall where
  grid : Grid
  score : Nat
  over : Bool
  won : Bool
  bestScore : Nat
  terminated : Bool
deriving DecidableEq, Repr

/-- `isGameTerminated()`: lost, or won without electing to keep playing. -/
def Game.isGameTerminated (g : Game) : Bool :=
  g.over || (g.won && !g.keepPlaying)

/-- The JS values a `keepPlaying` property lookup on a `Game` instance can
yield: a boolean own data property, or — only when no own property exists —
the prototype method. -/
inductive KeepPlayingSlot where
  | boolProp (b : Bool)
  | protoMethod
deriving DecidableEq, Repr

/-- A JS `TypeError` (calling a value that is not a function). -/
inductive JsError where
  | typeError
deriving DecidableEq, Repr

/-- Property lookup `game.keepPlaying` on a session state: `setup()` assigns
the boolean own property `this.keepPlaying` in both of its branches (the
restored flag, or `false` on a fresh board) and runs from the constructor,
so every session state this embedding represents — every post-setup state —
holds a boolean own property that shadows the prototype method. -/
def Game.keepPlayingLookup (g : Game) : KeepPlayingSlot :=
  KeepPlayingSlot.boolProp g.keepPlaying

/-- The body of the prototype method `keepPlaying()`: latch the flag
allowing play past the win condition (the `render.continueGame()` callout
carries no session state).  Instance dispatch never reaches this body after
`setup()` has run (see `Game.keepPlayingLookup` and `Game.keepPlayingCall`). -/
def Game.keepPlayingAction (g : Game) : Game :=
  { g with keepPlaying := true }

/-- The call `g.keepPlaying()` as the fan-out layer performs it: look the
property up on the instance, run the method if the lookup found one, and
throw `TypeError` if it found the boolean own property. -/
def Game.keepPlayingCall (g : Game) : Except JsError Game :=
  match g.keepPlayingLookup with
  | KeepPlayingSlot.protoMethod => Except.ok g.keepPlayingAction
  | KeepPlayingSlot.boolProp _ => Except.error JsError.typeError

/-- `serialize()`: the full session state as a plain object. -/
def Game.serialize (g : Game) : SavedState :=
  { grid := g.grid.serializeGrid, score := g.score, over := g.over,
    won := g.won, keepPlaying := g.keepPlaying }

/-- `draw()`: update the stored best score, then clear the persisted state
when the game is over or persist the serialized session otherwise, then call
`render.draw`. -/
def Game.draw (g : Game) (s : Storage) : Storage × RenderCall :=
  let s1 := if s.bestScore < g.score then { s with bestScore := g.score } else s
  let s2 := if g.over then { s1 with gameState := none }
            else { s1 with gameState := some g.serialize }
  (s2, { grid := g.grid, score := g.score, over := g.over, won := g.won,
         bestScore := s2.bestScore, terminated := g.isGameTerminated })

/-- `addRandomTile()`: when a cell is available, insert a tile of value 2 or
4 (the `Math.random() < 0.9` draw is the oracle `two`) into a random
available cell (the uniform draw is the oracle `pick`, reduced modulo the
number of empty cells). -/
def Game.addRandomTile (g : Game) (two : Bool) (pick : Nat) : Game :=
  if g.grid.cellsAvailable then
    let value := if two then 2 else 4
    let cells := g.grid.availableCells
    let cell := cells.getD (pick % cells.length) ⟨0, 0⟩
    { g with grid := g.grid.insertTile (Tile.make cell value) }
  else g

/-- `addStartTiles()`: `startTiles` successive `addRandomTile` calls, the
`i`-th using oracle `ρ i`. -/
def Game.addStartTilesAux (ρ : Nat → Bool × Nat) (g : Game) : Nat → Game
  | 0 => g
  | n + 1 => ((Game.addStartTilesAux ρ g n).addRandomTile (ρ n).1 (ρ n).2)

/-- The fresh-board branch of `setup()`: empty grid of the render-declared
size, zeroed score and flags, then the start tiles. -/
def Game.fresh (renderSize startTiles : Nat) (ρ : Nat → Bool × Nat) : Game :=
  let g0 : Game :=
    { grid := Grid.empty renderSize, score := 0, over := false, won := false,
      keepPlaying := false, renderSize := renderSize, startTiles := startTiles }
  Game.addStartTilesAux ρ g0 startTiles

/-- `setup()`: restore from the stored state when present, else build a
fresh board; either way finish with a `draw()` callout. -/
def Game.setup (renderSize startTiles : Nat) (s : Storage) (ρ : Nat → Bool × Nat) :
    Game × Storage × RenderCall :=
  let g : Game :=
    match s.gameState with
    | some prev =>
      { grid := Grid.fromState prev.grid.size prev.grid.cells,
        score := prev.score, over := prev.over, won := prev.won,
        keepPlaying := prev.keepPlaying,
        renderSize := renderSize, startTiles := startTiles }
    | none => Game.fresh renderSize startTiles ρ
  let r := g.draw s
  (g, r.1, r.2)

/-- `Game.getVector(direction)`: 0 up, 1 right, 2 down, 3 left. -/
def getVector : Fin 4 → Pos
  | 0 => ⟨0, -1⟩
  | 1 => ⟨1, 0⟩
  | 2 => ⟨0, 1⟩
  | 3 => ⟨-1, 0⟩

/-- The two per-axis traversal sequences built by `Game.buildTraversals`. -/
structure Traversals where
  x : List Nat
  y : List Nat
deriving Repr

/-- `Game.buildTraversals(vector, size)`: `0..size-1` on each axis, reversed
on an axis whose vector component is `+1`. -/
def buildTraversals (v : Pos) (size : Nat) : Traversals :=
  let base := List.range size
  { x := if v.x = 1 then base.reverse else base,
    y := if v.y = 1 then base.reverse else base }

/-- The cell visiting order of the nested `traversals.x.forEach / y.forEach`
loops. -/
def travCells (t : Traversals) : List Pos :=
  t.x.flatMap (fun x => t.y.map (fun y => (⟨(x : Int), (y : Int)⟩ : Pos)))

/-- The do-while loop of `findFarthestPosition`: `previous` and `cell` after
entering the loop once; iterate while `cell` is within bounds and empty.
`fuel` bounds the iteration count (the board is finite, so `size + 1` steps
always suffice to leave the bounds). -/
def farthestLoop (g : Grid) (v : Pos) (prev cur : Pos) : Nat → Pos × Pos
  | 0 => (prev, cur)
  | fuel + 1 =>
    if g.withinBounds cur && g.cellAvailable cur then
      farthestLoop g v cur ⟨cur.x + v.x, cur.y + v.y⟩ fuel
    else (prev, cur)

/-- `findFarthestPosition(cell, vector)`: step from `cell` by `vector` while
the next cell is in bounds and empty; return `(farthest, next)` — the
do-while always takes at least one step, so `next` starts at `cell + vector`. -/
def findFarthestPosition (g : Grid) (cell v : Pos) : Pos × Pos :=
  farthestLoop g v cell ⟨cell.x + v.x, cell.y + v.y⟩ (g.size + 1)

/-- `prepareTiles()`: for every occupied cell, clear the merge provenance and
snapshot the position. -/
def Grid.prepareTiles (g : Grid) : Grid :=
  { g with cells := g.cells.map (fun col =>
      col.map (Option.map (fun t => Tile.savePosition { t with mergedFrom := false }))) }

/-- `Game.positionsEqual(first, second)` applied to a cell and a tile. -/
def positionsEqual (c : Pos) (t : Tile) : Bool :=
  c.x == t.x && c.y == t.y

/-- `moveTile(tile, cell)`: null the tile's old cell, place the tile in
`cell`, and update its stored position; returns the grid and the updated
tile object. -/
def moveTileOp (grid : Grid) (t : Tile) (cell : Pos) : Grid × Tile :=
  let t2 := t.updatePosition cell
  let c1 := cellsSet grid.cells t.x.toNat t.y.toNat none
  let c2 := cellsSet c1 cell.x.toNat cell.y.toNat (some t2)
  ({ grid with cells := c2 }, t2)

/-- Observational record of one executed merge: the consumed target tile's
provenance tag, the created tile's tag at insertion, the created value, the
moving tile's value, and the target cell.  Instrumentation only — the fold
state below carries these so the theorems can speak about merges. -/
structure MergeEvent where
  targetTag : Bool
  createdTag : Bool
  value : Nat
  srcValue : Nat
  target : Pos
deriving DecidableEq, Repr

/-- The mutable state of the traversal loop inside `move`: the grid, the
accumulated `score` and `won` flag, the `moved` flag, and the list of merge
events (instrumentation). -/
structure TravState where
  grid : Grid
  score : Nat
  won : Bool
  moved : Bool
  events : List MergeEvent
deriving Repr

/-- The body of the nested traversal loops in `move`, for one cell: find the
farthest position, merge when `next` holds an equal-valued tile not itself
produced by a merge this turn, otherwise slide to the farthest cell; record
whether the tile left its traversal cell. -/
def moveStep (v : Pos) (st : TravState) (cell : Pos) : TravState :=
  match st.grid.cellContent cell with
  | none => st
  | some tile =>
    let positions := findFarthestPosition st.grid cell v
    let next := positions.2
    match st.grid.cellContent next with
    | some nt =>
      if nt.value == tile.value && !nt.mergedFrom then
        let merged : Tile :=
          { x := next.x, y := next.y, value := tile.value * 2,
            previousPosition := none, mergedFrom := true }
        let g1 := st.grid.insertTile merged
        let g2 := g1.removeTile tile
        let tile2 := tile.updatePosition next
        { grid := g2,
          score := st.score + merged.value,
          won := if merged.value == 2048 then true else st.won,
          moved := if positionsEqual cell tile2 then st.moved else true,
          events := st.events ++
            [{ targetTag := nt.mergedFrom, createdTag := merged.mergedFrom,
               value := merged.value, srcValue := tile.value, target := next }] }
      else
        let r := moveTileOp st.grid tile positions.1
        { st with grid := r.1,
                  moved := if positionsEqual cell r.2 then st.moved else true }
    | none =>
      let r := moveTileOp st.grid tile positions.1
      { st with grid := r.1,
                moved := if positionsEqual cell r.2 then st.moved else true }

/-- The traversal phase of `move(direction)`: build the vector and the
traversal order from the render-declared size, run `prepareTiles`, then fold
the per-cell body over the traversal cells. -/
def Game.moveCore (g : Game) (d : Fin 4) : TravState :=
  let v := getVector d
  let t := buildTraversals v g.renderSize
  (travCells t).foldl (moveStep v)
    { grid := g.grid.prepareTiles, score := g.score, won := g.won,
      moved := false, events := [] }

/-- In the source, `tileMatchesAvailable` iterates `x` and `y` up to
`this.size`; the `Game` class never assigns a `size` property, so the read
yields JS `undefined`. -/
def Game.sizeProperty (_ : Game) : Option Nat := none

/-- A JS `for (let i = 0; i < bound; i += 1)` range where the bound may be
`undefined`: any `<` comparison with `undefined` is false, so an undefined
bound yields the empty range. -/
def jsRange : Option Nat → List Nat
  | none => []
  | some n => List.range n

/-- `tileMatchesAvailable()`: scan cells `x, y` in `[0, this.size)` and, for
each tile found, the four orthogonal neighbours for an equal value.  Because
`this.size` is undefined (see `Game.sizeProperty`), the loops never run. -/
def Game.tileMatchesAvailable (g : Game) : Bool :=
  (jsRange g.sizeProperty).any (fun x =>
    (jsRange g.sizeProperty).any (fun y =>
      match g.grid.cellContent ⟨(x : Int), (y : Int)⟩ with
      | none => false
      | some tile =>
        (List.finRange 4).any (fun d =>
          let v := getVector d
          match g.grid.cellContent ⟨(x : Int) + v.x, (y : Int) + v.y⟩ with
          | some other => other.value == tile.value
          | none => false)))

/-- Modelled from the spec: the intended full-board scan of
`tileMatchesAvailable` — same body, but with the loop bound the board size as
the spec prescribes ("must scan the full board").  Kept separate from the
source-faithful `Game.tileMatchesAvailable` for comparison. -/
def Game.tileMatchesAvailableIntended (g : Game) : Bool :=
  (List.range g.grid.size).any (fun x =>
    (List.range g.grid.size).any (fun y =>
      match g.grid.cellContent ⟨(x : Int), (y : Int)⟩ with
      | none => false
      | some tile =>
        (List.finRange 4).any (fun d =>
          let v := getVector d
          match g.grid.cellContent ⟨(x : Int) + v.x, (y : Int) + v.y⟩ with
          | some other => other.value == tile.value
          | none => false)))

/-- `movesAvailable()`: a cell is free, or a tile match is available. -/
def Game.movesAvailable (g : Game) : Bool :=
  g.grid.cellsAvailable || g.tileMatchesAvailable

/-- The outcome of one `move(direction)` call: the session and storage
states afterwards, whether `addRandomTile` ran, and the `render.draw`
callout if one was issued. -/
structure MoveOutcome where
  game : Game
  storage : Storage
  spawned : Bool
  renderCall : Option RenderCall
deriving Repr

/-- `move(direction)`: no-op when the game is terminated; otherwise run the
traversal, and if any tile moved, spawn a random tile, set `over` when no
moves remain, and draw. -/
def Game.move (g : Game) (s : Storage) (d : Fin 4) (two : Bool) (pick : Nat) :
    MoveOutcome :=
  if g.isGameTerminated then
    { game := g, storage := s, spawned := false, renderCall := none }
  else
    let st := g.moveCore d
    let g1 : Game := { g with grid := st.grid, score := st.score, won := st.won }
    if st.moved then
      let g2 := g1.addRandomTile two pick
      let g3 := if !g2.movesAvailable then { g2 with over := true } else g2
      let r := g3.draw s
      { game := g3, storage := r.1, spawned := true, renderCall := some r.2 }
    else
      { game := g1, storage := s, spawned := false, renderCall := none }

/-- A sequence of `move` calls, each with its direction and spawn oracles. -/
def applyMoves (g : Game) (s : Storage) : List (Fin 4 × Bool × Nat) → Game × Storage
  | [] => (g, s)
  | m :: ms =>
    let o := g.move s m.1 m.2.1 m.2.2
    applyMoves o.game o.storage ms

/-! ### Concrete boards used as witnesses and counter-evidence -/

/-- Shorthand: an occupied cell holding a fresh tile. -/
def optTile (x y : Int) (v : Nat) : Option Tile := some (Tile.make ⟨x, y⟩ v)

/-- An empty storage collaborator. -/
def storage0 : Storage := { gameState := none, bestScore := 0 }

/-- A session on a full 2×2 board `cells = [[2, 2], [4, 8]]`: the column
`x = 0` holds two vertically adjacent tiles of value 2, so a merge is
available although no cell is free. -/
def c1Game : Game :=
  { grid := { size := 2,
              cells := [[optTile 0 0 2, optTile 0 1 2], [optTile 1 0 4, optTile 1 1 8]] },
    score := 0, over := false, won := false, keepPlaying := false,
    renderSize := 2, startTiles := 2 }

/-- A session on a 2×2 board with tiles `2@(0,0)`, `8@(0,1)`, `4@(1,0)` and
cell `(1,1)` empty.  Moving down slides the 4 into `(1,1)`; the subsequent
spawn (value 2, only free cell `(1,0)`) fills the board while leaving the
horizontally adjacent equal pair `2@(0,0)`, `2@(1,0)`. -/
def c2Game : Game :=
  { grid := { size := 2,
              cells := [[optTile 0 0 2, optTile 0 1 8], [optTile 1 0 4, none]] },
    score := 0, over := false, won := false, keepPlaying := false,
    renderSize := 2, startTiles := 2 }

/-- A terminated session (`over = true`). -/
def termGame : Game :=
  { grid := Grid.empty 2, score := 7, over := true, won := false,
    keepPlaying := false, renderSize := 2, startTiles := 2 }

/-- A winning, not-over session that has not elected to keep playing. -/
def wonGame : Game :=
  { grid := Grid.empty 2, score := 0, over := false, won := true,
    keepPlaying := false, renderSize := 2, startTiles := 2 }

/-- A 2×2 session with two tiles of value 2 in row `y = 0`; moving left
merges them into a 4 at `(0,0)`. -/
def mGame : Game :=
  { grid := { size := 2, cells := [[optTile 0 0 2, none], [optTile 1 0 2, none]] },
    score := 0, over := false, won := false, keepPlaying := false,
    renderSize := 2, startTiles := 2 }

/-- A 2×2 session with a single tile already against the left wall: moving
left relocates nothing. -/
def wallGame : Game :=
  { grid := { size := 2, cells := [[optTile 0 0 2, none], [none, none]] },
    score := 0, over := false, won := false, keepPlaying := false,
    renderSize := 2, startTiles := 2 }

/-! ### Helper lemmas -/

/-- The equal-neighbour scan never runs: its loop bound is the unset `size`
property of the `Game` object. -/
lemma tileMatchesAvailable_eq_false (g : Game) : g.tileMatchesAvailable = false := rfl

/-- A session with `over = true` is terminated. -/
lemma over_terminated (g : Game) (h : g.over = true) : g.isGameTerminated = true := by
  simp [Game.isGameTerminated, h]

/-- On a terminated session, `move` returns everything unchanged with no
spawn and no draw. -/
lemma terminated_move_eq (g : Game) (s : Storage) (d : Fin 4) (two : Bool) (pick : Nat)
    (h : g.isGameTerminated = true) :
    g.move s d two pick = { game := g, storage := s, spawned := false, renderCall := none } := by
  simp [Game.move, h]

/-- Once `over` holds, any sequence of moves leaves the session and storage
untouched. -/
lemma over_applyMoves (g : Game) (s : Storage) (h : g.over = true) :
    ∀ ms, applyMoves g s ms = (g, s)
  | [] => rfl
  | m :: ms => by
    simp only [applyMoves, terminated_move_eq g s m.1 m.2.1 m.2.2 (over_terminated g h)]
    exact over_applyMoves g s h ms

/-! ### Claim theorems -/

/-- C1: the claim that `movesAvailable()` is true iff a cell is empty or an
orthogonal equal-valued neighbour exists fails on the code.
`tileMatchesAvailable` iterates `x, y` up to `this.size`, a property the
`Game` class never assigns, so the scan never runs and the function is
constantly false; `movesAvailable()` degenerates to the empty-cell check.
On the full board `c1Game`, which holds a vertically adjacent pair of 2s,
the intended full-board scan reports a match yet `movesAvailable()` is
false. -/
theorem movesAvailable_ignores_matches :
    (∀ g : Game, g.tileMatchesAvailable = false) ∧
    (∀ g : Game, g.movesAvailable = g.grid.cellsAvailable) ∧
    c1Game.grid.cellsAvailable = false ∧
    c1Game.tileMatchesAvailableIntended = true ∧
    c1Game.movesAvailable = false := by
  refine ⟨fun g => rfl, fun g => ?_, by decide, by decide, by decide⟩
  show (g.grid.cellsAvailable || g.tileMatchesAvailable) = g.grid.cellsAvailable
  rw [tileMatchesAvailable_eq_false, Bool.or_false]

/-- C2: the claim that a board-changing move leaving an adjacent equal pair
keeps `over` false fails on the code.  On `c2Game`, moving down changes the
board, the spawn fills the last cell, and an adjacent equal pair of 2s
remains — the intended scan confirms it — yet `move` sets `over = true`
because the buggy `tileMatchesAvailable` reports no match. -/
theorem over_set_despite_adjacent_pair :
    (c2Game.moveCore 2).moved = true ∧
    (c2Game.move storage0 2 true 0).game.over = true ∧
    ((c2Game.move storage0 2 true 0).game).grid.cellsAvailable = false ∧
    Game.tileMatchesAvailableIntended (c2Game.move storage0 2 true 0).game = true :=
  ⟨by decide, by decide, by decide, by decide⟩

/-- C3: the claim fails on the code.  `setup()` assigns the boolean own
property `keepPlaying` in both of its branches and runs from the
constructor, so on every session state after setup — exactly the claim's
scope — the property lookup `session.keepPlaying` yields the boolean, the
call `session.keepPlaying()` throws `TypeError` instead of latching, and the
prototype method's body (which would indeed latch the flag, leave `won`
unchanged, and make termination depend on `over` alone — the spec's evident
intent) is unreachable through instance dispatch. -/
theorem keepPlaying_call_type_error :
    (∀ g : Game, g.keepPlayingLookup = KeepPlayingSlot.boolProp g.keepPlaying) ∧
    (∀ g : Game, g.keepPlayingCall = Except.error JsError.typeError) ∧
    (∀ g : Game,
        (g.keepPlayingAction).keepPlaying = true ∧
        (g.keepPlayingAction).won = g.won ∧
        (g.keepPlayingAction).isGameTerminated = g.over) ∧
    wonGame.keepPlayingCall = Except.error JsError.typeError := by
  refine ⟨fun g => rfl, fun g => rfl, fun g => ⟨rfl, rfl, ?_⟩, rfl⟩
  simp [Game.keepPlayingAction, Game.isGameTerminated]

/-- C4: on a terminated session (over, or won without keep-playing) `move`
is a no-op: the session and storage are returned unchanged, no spawn occurs
and no draw callout is issued; consequently once `over` is true every
further sequence of moves leaves the state untouched until restart. -/
theorem terminated_move_noop (g : Game) (s : Storage) (d : Fin 4) (two : Bool) (pick : Nat)
    (h : g.isGameTerminated = true) :
    g.move s d two pick = { game := g, storage := s, spawned := false, renderCall := none } ∧
    (g.over = true → ∀ ms, applyMoves g s ms = (g, s)) :=
  ⟨terminated_move_eq g s d two pick h, fun ho ms => over_applyMoves g s ho ms⟩

/-- Witness for C4: a concrete `over` session where a move call returns
everything unchanged. -/
theorem terminated_move_noop_witness :
    termGame.isGameTerminated = true ∧
    termGame.move storage0 0 true 0 =
      { game := termGame, storage := storage0, spawned := false, renderCall := none } ∧
    applyMoves termGame storage0 [(0, true, 0), (3, false, 1)] = (termGame, storage0) :=
  ⟨by decide,
   (terminated_move_noop termGame storage0 0 true 0 (by decide)).1,
   (terminated_move_noop termGame storage0 0 true 0 (by decide)).2 (by decide)
     [(0, true, 0), (3, false, 1)]⟩

/-- One traversal step either leaves the event list alone, or performs a
merge: it appends exactly one event whose consumed target's tag was unset,
whose created tile's tag is set, and whose value doubles the moving tile's
value, adding that value to the score.  In every case the step's score
changes only by the appended event's value, and the `moved` flag is either
kept or set. -/
lemma moveStep_cases (v : Pos) (st : TravState) (c : Pos) :
    ((moveStep v st c).events = st.events ∧ (moveStep v st c).score = st.score ∧
      ((moveStep v st c).moved = st.moved ∨ (moveStep v st c).moved = true)) ∨
    (∃ e : MergeEvent,
      (moveStep v st c).events = st.events ++ [e] ∧
      (moveStep v st c).score = st.score + e.value ∧
      e.targetTag = false ∧ e.createdTag = true ∧ e.value = 2 * e.srcValue ∧
      ((moveStep v st c).moved = st.moved ∨ (moveStep v st c).moved = true)) := by
  unfold moveStep
  split
  · exact Or.inl ⟨rfl, rfl, Or.inl rfl⟩
  · dsimp only
    split
    · split
      · rename_i tile _ nt hguard
        refine Or.inr ⟨_, rfl, ?_, ?_, rfl, ?_, ?_⟩
        · dsimp only
        · have h2 := (Bool.and_eq_true _ _).mp hguard
          simpa using h2.2
        · dsimp only; omega
        · dsimp only
          split
          · exact Or.inl rfl
          · exact Or.inr rfl
      · dsimp only
        refine Or.inl ⟨rfl, rfl, ?_⟩
        split
        · exact Or.inl rfl
        · exact Or.inr rfl
    · dsimp only
      refine Or.inl ⟨rfl, rfl, ?_⟩
      split
      · exact Or.inl rfl
      · exact Or.inr rfl

/-- A step never unsets the `moved` flag. -/
lemma moveStep_moved_mono (v : Pos) (st : TravState) (c : Pos) (h : st.moved = true) :
    (moveStep v st c).moved = true := by
  rcases moveStep_cases v st c with ⟨-, -, hm | hm⟩ | ⟨e, -, -, -, -, -, hm | hm⟩
  · rw [hm]; exact h
  · exact hm
  · rw [hm]; exact h
  · exact hm

/-- Folding the step body only ever appends merge events, each with an unset
target tag, a set created tag, and a doubled value. -/
lemma foldl_moveStep_events_mem (v : Pos) :
    ∀ (l : List Pos) (st : TravState) (e : MergeEvent),
      e ∈ (l.foldl (moveStep v) st).events →
      e ∈ st.events ∨ (e.targetTag = false ∧ e.createdTag = true ∧ e.value = 2 * e.srcValue)
  | [], _, _, he => Or.inl he
  | c :: l, st, e, he => by
    rcases foldl_moveStep_events_mem v l (moveStep v st c) e he with h | h
    · rcases moveStep_cases v st c with ⟨hev, -, -⟩ | ⟨e2, hev, -, ht, hc2, hv2, -⟩
      · rw [hev] at h
        exact Or.inl h
      · rw [hev, List.mem_append, List.mem_singleton] at h
        rcases h with h | h
        · exact Or.inl h
        · subst h
          exact Or.inr ⟨ht, hc2, hv2⟩
    · exact Or.inr h

/-- Folding the step body changes the score by exactly the sum of the values
of the merge events it appends. -/
lemma foldl_moveStep_score (v : Pos) :
    ∀ (l : List Pos) (st : TravState),
      (l.foldl (moveStep v) st).score + (st.events.map MergeEvent.value).sum
        = st.score + (((l.foldl (moveStep v) st).events).map MergeEvent.value).sum
  | [], _ => rfl
  | c :: l, st => by
    have ih := foldl_moveStep_score v l (moveStep v st c)
    simp only [List.foldl_cons]
    rcases moveStep_cases v st c with ⟨hev, hsc, -⟩ | ⟨e, hev, hsc, -, -, -, -⟩
    · rw [hev, hsc] at ih
      exact ih
    · rw [hev, hsc, List.map_append, List.sum_append] at ih
      simp only [List.map_cons, List.map_nil, List.sum_cons, List.sum_nil] at ih
      omega

/-- The traversal phase's score is the starting score plus the values of all
merges it performed. -/
lemma moveCore_score (g : Game) (d : Fin 4) :
    (g.moveCore d).score = g.score + (((g.moveCore d).events).map MergeEvent.value).sum := by
  have h := foldl_moveStep_score (getVector d)
    (travCells (buildTraversals (getVector d) g.renderSize))
    { grid := g.grid.prepareTiles, score := g.score, won := g.won,
      moved := false, events := [] }
  simpa [Game.moveCore] using h

/-- `addRandomTile` never changes the score. -/
lemma addRandomTile_score (g : Game) (two : Bool) (pick : Nat) :
    (g.addRandomTile two pick).score = g.score := by
  unfold Game.addRandomTile
  split <;> rfl

/-- The `over`-setting conditional after a move never changes the score. -/
lemma overIf_score (x : Game) :
    (if !x.movesAvailable then { x with over := true } else x).score = x.score := by
  split <;> rfl

/-- A `move` call either keeps the score (terminated or unmoved) or ends
with exactly the traversal phase's score. -/
lemma move_game_score (g : Game) (s : Storage) (d : Fin 4) (two : Bool) (pick : Nat) :
    (g.move s d two pick).game.score = g.score ∨
    (g.move s d two pick).game.score = (g.moveCore d).score := by
  unfold Game.move
  split
  · exact Or.inl rfl
  · dsimp only
    split
    · right
      rw [overIf_score, addRandomTile_score]
    · exact Or.inr rfl

/-- A single `move` call never decreases the score. -/
lemma move_score_ge (g : Game) (s : Storage) (d : Fin 4) (two : Bool) (pick : Nat) :
    g.score ≤ (g.move s d two pick).game.score := by
  rcases move_game_score g s d two pick with h | h
  · rw [h]
  · rw [h, moveCore_score]
    exact Nat.le_add_right _ _

/-- Score is non-decreasing along any sequence of moves. -/
lemma applyMoves_score_ge :
    ∀ (ms : List (Fin 4 × Bool × Nat)) (g : Game) (s : Storage),
      g.score ≤ (applyMoves g s ms).1.score
  | [], _, _ => le_refl _
  | m :: ms, g, s =>
    le_trans (move_score_ge g s m.1 m.2.1 m.2.2)
      (applyMoves_score_ge ms (g.move s m.1 m.2.1 m.2.2).game
        (g.move s m.1 m.2.1 m.2.2).storage)

/-- C5: within a single `move` call, a merge is performed only when the
target tile's merge-provenance tag is unset, and every merge-created tile is
tagged with provenance at creation — so a tile created by a merge during the
call is never itself merged again in the same call. -/
theorem merge_provenance_guard (g : Game) (d : Fin 4) (e : MergeEvent)
    (he : e ∈ (g.moveCore d).events) :
    e.targetTag = false ∧ e.createdTag = true := by
  rcases foldl_moveStep_events_mem (getVector d) _ _ e he with h | h
  · simp at h
  · exact ⟨h.1, h.2.1⟩

/-- Witness for C5: in the concrete left-merge of `mGame`, the single merge
consumed a target with the tag unset and created a tile with the tag set. -/
theorem merge_provenance_guard_witness :
    (⟨false, true, 4, 2, ⟨0, 0⟩⟩ : MergeEvent) ∈ (mGame.moveCore 3).events ∧
    (⟨false, true, 4, 2, ⟨0, 0⟩⟩ : MergeEvent).targetTag = false ∧
    (⟨false, true, 4, 2, ⟨0, 0⟩⟩ : MergeEvent).createdTag = true :=
  ⟨by decide,
   (merge_provenance_guard mGame 3 ⟨false, true, 4, 2, ⟨0, 0⟩⟩ (by decide)).1,
   (merge_provenance_guard mGame 3 ⟨false, true, 4, 2, ⟨0, 0⟩⟩ (by decide)).2⟩

/-- C6: a `move` call whose traversal leaves every tile in its traversal
cell (the `moved` flag stays false) spawns no random tile, leaves `over`
untouched, and issues no draw or storage callout. -/
theorem unmoved_move_silent (g : Game) (s : Storage) (d : Fin 4) (two : Bool) (pick : Nat)
    (h : (g.moveCore d).moved = false) :
    (g.move s d two pick).spawned = false ∧
    (g.move s d two pick).renderCall = none ∧
    (g.move s d two pick).storage = s ∧
    (g.move s d two pick).game.over = g.over := by
  unfold Game.move
  split
  · exact ⟨rfl, rfl, rfl, rfl⟩
  · dsimp only
    rw [if_neg (by rw [h]; exact Bool.false_ne_true)]
    exact ⟨rfl, rfl, rfl, rfl⟩

/-- Witness for C6: pushing the lone wall-adjacent tile of `wallGame` left
moves nothing and the call is silent. -/
theorem unmoved_move_silent_witness :
    (wallGame.moveCore 3).moved = false ∧
    (wallGame.move storage0 3 true 0).spawned = false ∧
    (wallGame.move storage0 3 true 0).renderCall = none ∧
    (wallGame.move storage0 3 true 0).storage = storage0 ∧
    (wallGame.move storage0 3 true 0).game.over = wallGame.over :=
  ⟨by decide,
   (unmoved_move_silent wallGame storage0 3 true 0 (by decide)).1,
   (unmoved_move_silent wallGame storage0 3 true 0 (by decide)).2.1,
   (unmoved_move_silent wallGame storage0 3 true 0 (by decide)).2.2.1,
   (unmoved_move_silent wallGame storage0 3 true 0 (by decide)).2.2.2⟩

/-- C7: score is monotonically non-decreasing across any sequence of moves;
within one move the traversal's score is the starting score plus exactly the
sum of the merged tiles' values, each of which is double the value of the
tile that moved into the merge. -/
theorem score_monotone :
    (∀ (g : Game) (s : Storage) (ms : List (Fin 4 × Bool × Nat)),
        g.score ≤ (applyMoves g s ms).1.score) ∧
    (∀ (g : Game) (d : Fin 4),
        (g.moveCore d).score
          = g.score + (((g.moveCore d).events).map MergeEvent.value).sum) ∧
    (∀ (g : Game) (d : Fin 4), ∀ e ∈ (g.moveCore d).events, e.value = 2 * e.srcValue) := by
  refine ⟨fun g s ms => applyMoves_score_ge ms g s, moveCore_score, fun g d e he => ?_⟩
  rcases foldl_moveStep_events_mem (getVector d) _ _ e he with h | h
  · simp at h
  · exact h.2.2

/-- Witness for C7: the concrete merge of `mGame` adds 4 = 2·2 to the score
and the sequence of one left move does not decrease it. -/
theorem score_monotone_witness :
    (⟨false, true, 4, 2, ⟨0, 0⟩⟩ : MergeEvent) ∈ (mGame.moveCore 3).events ∧
    (⟨false, true, 4, 2, ⟨0, 0⟩⟩ : MergeEvent).value
      = 2 * (⟨false, true, 4, 2, ⟨0, 0⟩⟩ : MergeEvent).srcValue ∧
    mGame.score ≤ (applyMoves mGame storage0 [(3, true, 0)]).1.score :=
  ⟨by decide,
   score_monotone.2.2 mGame 3 ⟨false, true, 4, 2, ⟨0, 0⟩⟩ (by decide),
   score_monotone.1 mGame storage0 [(3, true, 0)]⟩

/-- Inner product of a position against a direction vector; used to show the
farthest-position search always advances at least one step. -/
def dotP (v p : Pos) : Int := v.x * p.x + v.y * p.y

/-- Stepping a position by the vector adds the vector's self-product. -/
lemma dotP_step (v p : Pos) : dotP v ⟨p.x + v.x, p.y + v.y⟩ = dotP v p + dotP v v := by
  simp only [dotP]
  ring

/-- The search loop never decreases the inner product of the scanned cell. -/
lemma farthestLoop_dot (g : Grid) (v : Pos) (hv : 0 ≤ dotP v v) :
    ∀ (fuel : Nat) (prev cur : Pos),
      dotP v cur ≤ dotP v (farthestLoop g v prev cur fuel).2
  | 0, _, _ => le_refl _
  | fuel + 1, prev, cur => by
    unfold farthestLoop
    split
    · refine le_trans ?_ (farthestLoop_dot g v hv fuel cur _)
      rw [dotP_step]
      omega
    · exact le_refl _

/-- Each of the four direction vectors is a unit vector. -/
lemma getVector_dot (d : Fin 4) : dotP (getVector d) (getVector d) = 1 := by
  fin_cases d <;> decide

/-- The `next` position returned by `findFarthestPosition` lies at least one
vector step away from the starting cell, so it never equals it. -/
lemma findFarthest_next_ne (gr : Grid) (c : Pos) (d : Fin 4) :
    (findFarthestPosition gr c (getVector d)).2 ≠ c := by
  intro h
  have h1 : dotP (getVector d) ⟨c.x + (getVector d).x, c.y + (getVector d).y⟩
      ≤ dotP (getVector d) (findFarthestPosition gr c (getVector d)).2 :=
    farthestLoop_dot gr (getVector d) (by rw [getVector_dot]; omega) (gr.size + 1) c _
  rw [h, dotP_step, getVector_dot] at h1
  omega

/-- A step whose event list changed (a merge) sets the `moved` flag,
provided the merge target differs from the traversal cell. -/
lemma moveStep_merge_moved (v : Pos) (st : TravState) (c : Pos)
    (hne : (findFarthestPosition st.grid c v).2 ≠ c) :
    (moveStep v st c).events = st.events ∨ (moveStep v st c).moved = true := by
  unfold moveStep
  split
  · exact Or.inl rfl
  · rename_i tile htile
    dsimp only
    split
    · split
      · right
        dsimp only
        have hpe : positionsEqual c
            (tile.updatePosition (findFarthestPosition st.grid c v).2) = false := by
          rw [Bool.eq_false_iff]
          intro hc
          apply hne
          simp only [positionsEqual, Tile.updatePosition, Bool.and_eq_true, beq_iff_eq] at hc
          exact Pos.ext hc.1.symm hc.2.symm
        simp [hpe]
      · exact Or.inl rfl
    · exact Or.inl rfl

/-- Along the fold, a non-empty event list forces the `moved` flag. -/
lemma foldl_moveStep_events_moved (v : Pos)
    (hne : ∀ (gr : Grid) (c : Pos), (findFarthestPosition gr c v).2 ≠ c) :
    ∀ (l : List Pos) (st : TravState),
      (st.events ≠ [] → st.moved = true) →
      ((l.foldl (moveStep v) st).events ≠ [] → (l.foldl (moveStep v) st).moved = true)
  | [], _, hi => hi
  | c :: l, st, hi => by
    refine foldl_moveStep_events_moved v hne l (moveStep v st c) ?_
    intro hev
    rcases moveStep_merge_moved v st c (hne st.grid c) with h | h
    · rw [h] at hev
      exact moveStep_moved_mono v st c (hi hev)
    · exact h

/-- On a live session, a traversal that set `moved` makes `move` spawn a
tile and issue a draw callout. -/
lemma moved_move_effects (g : Game) (s : Storage) (d : Fin 4) (two : Bool) (pick : Nat)
    (ht : g.isGameTerminated = false) (hm : (g.moveCore d).moved = true) :
    (g.move s d two pick).spawned = true ∧
    ((g.move s d two pick).renderCall).isSome = true := by
  unfold Game.move
  rw [if_neg (by rw [ht]; exact Bool.false_ne_true)]
  dsimp only
  rw [if_pos hm]
  exact ⟨rfl, rfl⟩

/-- C10: every merge performed during `move` marks the board as changed: the
merge target is always at least one vector step from the traversal cell, so
any traversal that performed a merge ends with the `moved` flag set, and a
live session's `move` then spawns a random tile and issues the draw
callout. -/
theorem merge_sets_moved :
    (∀ (gr : Grid) (c : Pos) (d : Fin 4),
        (findFarthestPosition gr c (getVector d)).2 ≠ c) ∧
    (∀ (g : Game) (d : Fin 4),
        (g.moveCore d).events ≠ [] → (g.moveCore d).moved = true) ∧
    (∀ (g : Game) (s : Storage) (d : Fin 4) (two : Bool) (pick : Nat),
        g.isGameTerminated = false → (g.moveCore d).moved = true →
        (g.move s d two pick).spawned = true ∧
        ((g.move s d two pick).renderCall).isSome = true) := by
  refine ⟨findFarthest_next_ne, fun g d => ?_, moved_move_effects⟩
  exact foldl_moveStep_events_moved (getVector d)
    (fun gr c => findFarthest_next_ne gr c d)
    (travCells (buildTraversals (getVector d) g.renderSize))
    { grid := g.grid.prepareTiles, score := g.score, won := g.won,
      moved := false, events := [] }
    (fun h => absurd rfl h)

/-- Witness for C10: the concrete merge of `mGame` sets `moved`, spawns and
draws. -/
theorem merge_sets_moved_witness :
    (mGame.moveCore 3).events ≠ [] ∧
    (mGame.moveCore 3).moved = true ∧
    (mGame.move storage0 3 true 0).spawned = true ∧
    ((mGame.move storage0 3 true 0).renderCall).isSome = true :=
  ⟨by decide,
   merge_sets_moved.2.1 mGame 3 (by decide),
   (merge_sets_moved.2.2 mGame storage0 3 true 0 (by decide)
      (merge_sets_moved.2.1 mGame 3 (by decide))).1,
   (merge_sets_moved.2.2 mGame storage0 3 true 0 (by decide)
      (merge_sets_moved.2.1 mGame 3 (by decide))).2⟩

/-- Reading a doubly-mapped cell matrix is mapping the read. -/
lemma cellsGet_map {α β : Type} (f : α → β) (m : List (List (Option α))) (x y : Nat) :
    cellsGet (m.map (fun col => col.map (Option.map f))) x y
      = (cellsGet m x y).map f := by
  unfold cellsGet
  rw [List.getElem?_map]
  cases m[x]? with
  | none => rfl
  | some col =>
    simp only [Option.map_some']
    rw [List.getElem?_map]
    cases col[y]? with
    | none => rfl
    | some o => cases o <;> rfl

/-- C8: round trip — serializing a session and then running `setup` on a
storage holding that serialized state reproduces a board with the same tile
values at the same positions and identical score, over, won and keepPlaying
flags. -/
theorem serialize_setup_roundtrip (g : Game) (s : Storage) (rs st2 : Nat)
    (ρ : Nat → Bool × Nat) :
    (Game.setup rs st2 { s with gameState := some g.serialize } ρ).1.grid.size
        = g.grid.size ∧
    (∀ x y : Nat,
      (cellsGet
          (Game.setup rs st2 { s with gameState := some g.serialize } ρ).1.grid.cells
          x y).map Tile.value
        = (cellsGet g.grid.cells x y).map Tile.value) ∧
    (Game.setup rs st2 { s with gameState := some g.serialize } ρ).1.score = g.score ∧
    (Game.setup rs st2 { s with gameState := some g.serialize } ρ).1.over = g.over ∧
    (Game.setup rs st2 { s with gameState := some g.serialize } ρ).1.won = g.won ∧
    (Game.setup rs st2 { s with gameState := some g.serialize } ρ).1.keepPlaying
        = g.keepPlaying := by
  refine ⟨rfl, fun x y => ?_, rfl, rfl, rfl, rfl⟩
  show (cellsGet (Grid.fromState g.serialize.grid.size g.serialize.grid.cells).cells
      x y).map Tile.value = (cellsGet g.grid.cells x y).map Tile.value
  simp only [Game.serialize, Grid.serializeGrid, Grid.fromState]
  rw [cellsGet_map, cellsGet_map]
  cases cellsGet g.grid.cells x y <;> rfl

/-- C9: `draw()` with `over = true` clears the persisted game state instead
of saving it, and a subsequent `setup()` then finds no previous state and
initializes a fresh board; with `over = false` it persists the full
serialized session state. -/
theorem draw_clears_when_over (g : Game) (s : Storage) :
    (g.over = true → (g.draw s).1.gameState = none) ∧
    (g.over = false → (g.draw s).1.gameState = some g.serialize) ∧
    (∀ (rs st2 : Nat) (ρ : Nat → Bool × Nat), g.over = true →
        (Game.setup rs st2 (g.draw s).1 ρ).1 = Game.fresh rs st2 ρ) := by
  refine ⟨fun ho => ?_, fun ho => ?_, fun rs st2 ρ ho => ?_⟩
  · simp [Game.draw, ho]
  · simp [Game.draw, ho]
  · have h1 : (g.draw s).1.gameState = none := by simp [Game.draw, ho]
    unfold Game.setup
    rw [h1]

/-- The deterministic start-tile oracle used by the C9 witness. -/
def rho0 : Nat → Bool × Nat := fun _ => (true, 0)

/-- Witness for C9: drawing the over session `termGame` clears storage and
the following setup is fresh; drawing the live session `wonGame` persists
its serialization. -/
theorem draw_clears_when_over_witness :
    (termGame.draw storage0).1.gameState = none ∧
    (Game.setup 2 2 (termGame.draw storage0).1 rho0).1 = Game.fresh 2 2 rho0 ∧
    (wonGame.draw storage0).1.gameState = some wonGame.serialize :=
  ⟨(draw_clears_when_over termGame storage0).1 rfl,
   (draw_clears_when_over termGame storage0).2.2 2 2 rho0 rfl,
   (draw_clears_when_over wonGame storage0).2.1 rfl⟩

end Gabriel
